import Mathlib

/-!
Verification of the board-state pallet (src/pallets/board-state/src/lib.rs)
against its natural-language specification.

The pallet declares the data model and storage for a sharded discussion
board with a commit/commit/reveal attestation gate.  Its dispatchable
surface, however, consists only of the template calls `do_something` and
`cause_error`.  The attestation / buffer logic (admit, the two commit
rounds, reveal, finalize) is declared through its types and storage items
but has no executable implementation in the source; those operations are
modelled here from the specification (each such definition carries a
doc comment starting with `Modelled from the spec:`).

Integer types of the source are embedded as `Nat` with explicit bounds
where overflow matters (`BufferIndex` is a `u16`, the `Something` value a
`u32`).  Hash values (`H256`) are modelled as `Nat`, since the code only
ever compares them for equality.
-/

namespace BoardState

/-- Account identifier; models the opaque `T::AccountId` of the pallet. -/
abbrev AccountId := Nat

/-- Block number; models `BlockNumberFor<T>`. -/
abbrev BlockNumber := Nat

/-- A 256-bit hash value; only equality of hashes is ever used, so it is
embedded as `Nat`. -/
abbrev H256 := Nat

/-- Content Identifier: a fixed-size hash (`pub type Cid = H256`). -/
abbrev Cid := H256

/-- Index for identifying boards (`pub type BoardIndex = u16`). -/
abbrev BoardIndex := Nat

/-- Index for identifying threads within a board (`u16`). -/
abbrev ThreadIndex := Nat

/-- Index for identifying posts within a thread (`u16`). -/
abbrev PostIndex := Nat

/-- Index for identifying shards of a board (`u8`). -/
abbrev ShardIndex := Nat

/-- Index for identifying posts in a post buffer (`pub type BufferIndex = u16`). -/
abbrev BufferIndex := Nat

/-- Largest value representable by the fixed-width (`u16`) `BufferIndex`. -/
def BufferIndexMax : Nat := 2 ^ 16 - 1

/-- Metadata associated with a board (struct `BoardMetadata`).  Byte strings
are embedded as lists of byte values. -/
structure BoardMetadata where
  name : List Nat
  description : List Nat
  rules : List Nat
  number_of_threads : ThreadIndex
  posts_per_thread : PostIndex
deriving DecidableEq, Repr

/-- Metadata associated with a thread (struct `ThreadMetadata`). -/
structure ThreadMetadata where
  bump_time : BlockNumber
  post_count : PostIndex
deriving DecidableEq, Repr

/-- Data associated with a post (struct `PostData`). -/
structure PostData where
  cid : Cid
  author : AccountId
  created_at : BlockNumber
deriving DecidableEq, Repr

/-- Data associated with a buffered post (struct `BufferedPost`). -/
structure BufferedPost where
  data : PostData
  board_index : BoardIndex
  thread_index : ThreadIndex
deriving DecidableEq, Repr

/-- A vote in the commit phase (enum `Vote`: `True` = data available,
`False` = data not available). -/
inductive Vote where
  | VTrue
  | VFalse
deriving DecidableEq, Repr

/-- A revealed vote (enum `RevealedVote`). -/
inductive RevealedVote where
  | Aye
  | Nay
  | Invalid
deriving DecidableEq, Repr

/-- A commit of a vote: one attester slot's progress
(enum `AttestationState`). -/
inductive AttestationState where
  | Pending
  | FirstCommit (h1 : H256)
  | SecondCommit (h1 : H256) (h2 : H256)
  | Revealed (v : RevealedVote)
deriving DecidableEq, Repr

/-- The error taxonomy of the specification (section 7). -/
inductive ErrorKind where
  | NotFound
  | CapacityExceeded
  | InvalidTransition
  | CommitmentMismatch
  | Unauthorized
  | Overflow
deriving DecidableEq, Repr

/-- The pallet's declared error enum (`Error<T>`). -/
inductive Error where
  | NoneValue
  | StorageOverflow
deriving DecidableEq, Repr

/-- A dispatch-level error: either a bad origin (from `ensure_signed`) or a
pallet error. -/
inductive DispatchError where
  | BadOrigin
  | Module (e : Error)
deriving DecidableEq, Repr

/-- The origin of a call; `ensure_signed` accepts only `Signed`. -/
inductive Origin where
  | Signed (who : AccountId)
  | Root
  | Unsigned
deriving DecidableEq, Repr

/-- The pallet's declared event enum (`Event<T>`). -/
inductive Event where
  | SomethingStored (something : Nat) (who : AccountId)
deriving DecidableEq, Repr

/-- The whole storage of the pallet: the seven declared storage items
(`Board`, `Thread`, `Post`, `ShardAttesters`, `BufferHead`,
`BufferedPosts`, `Attestations`) plus the `Something` storage value that
`do_something` / `cause_error` read and write (referenced in the source as
`Something::<T>`, a `u32` storage value).  Each map is embedded as a
function from its key to an optional value; `none` means the key has no
explicitly stored entry. -/
structure Storage where
  Something : Option Nat
  Board : BoardIndex → Option BoardMetadata
  Thread : BoardIndex → ThreadIndex → Option ThreadMetadata
  Post : BoardIndex → ThreadIndex → PostIndex → Option PostData
  ShardAttesters : BoardIndex → ShardIndex → Option (List AccountId)
  BufferHead : BoardIndex → Option BufferIndex
  BufferedPosts : BoardIndex → BufferIndex → Option BufferedPost
  Attestations : BoardIndex → BufferIndex → ShardIndex → Option (List AttestationState)

/-- The `BufferHead` getter: the storage item is declared with `ValueQuery`
over the `u16` value type, so querying an absent key yields the default
value `0`. -/
def buffer_head (st : Storage) (b : BoardIndex) : BufferIndex :=
  (st.BufferHead b).getD 0

/-- The origin check `ensure_signed`: returns the signer for a signed origin and fails with
`BadOrigin` otherwise. -/
def ensure_signed : Origin → Except DispatchError AccountId
  | .Signed who => .ok who
  | .Root => .error .BadOrigin
  | .Unsigned => .error .BadOrigin

/-- Largest value representable by a `u32`. -/
def U32Max : Nat := 2 ^ 32 - 1

/-- Checked `u32` addition (`u32::checked_add`): `none` exactly when the mathematical sum exceeds
`u32::MAX`. -/
def checked_add (a b : Nat) : Option Nat :=
  if a + b ≤ U32Max then some (a + b) else none

/-- Dispatchable `do_something` (call index 0): requires a signed origin,
unconditionally overwrites the `Something` storage value with the given
`u32`, and emits `SomethingStored`.  The result triple is
(dispatch result, post-call storage, post-call event list); a failed call
leaves storage and events exactly as the code does (the only failure,
`ensure_signed`, happens before any write). -/
def do_something (st : Storage) (ev : List Event) (origin : Origin)
    (something : Nat) : Except DispatchError Unit × Storage × List Event :=
  match ensure_signed origin with
  | .error e => (.error e, st, ev)
  | .ok who =>
    (.ok (), { st with Something := some something },
      ev ++ [Event.SomethingStored something who])

/-- Dispatchable `cause_error` (call index 1): requires a signed origin,
reads `Something`, fails with `NoneValue` if it is unset, otherwise
increments it with `checked_add` (failing with `StorageOverflow` on `u32`
overflow) and writes the incremented value back.  All failures occur
before the write. -/
def cause_error (st : Storage) (ev : List Event) (origin : Origin) :
    Except DispatchError Unit × Storage × List Event :=
  match ensure_signed origin with
  | .error e => (.error e, st, ev)
  | .ok _ =>
    match st.Something with
    | none => (.error (.Module .NoneValue), st, ev)
    | some old =>
      match checked_add old 1 with
      | none => (.error (.Module .StorageOverflow), st, ev)
      | some new => (.ok (), { st with Something := some new }, ev)

/-- The pallet's `Call` enum: the `#[pallet::call]` impl defines exactly the
two dispatchables `do_something` and `cause_error`. -/
inductive Call where
  | do_something (something : Nat)
  | cause_error
deriving DecidableEq, Repr

/-- The names of the pallet's dispatchable calls, as they appear in the
`#[pallet::call]` impl of the source. -/
def dispatchableNames : List String := ["do_something", "cause_error"]

/-- The seven operation names of the specification's operation surface. -/
def specOperationNames : List String :=
  ["createBoard", "createThread", "submitPost", "commitVoteRound1",
   "commitVoteRound2", "revealVote", "finalizeAttestation"]

/-- Dispatch a call against storage. -/
def dispatch (st : Storage) (ev : List Event) (o : Origin) :
    Call → Except DispatchError Unit × Storage × List Event
  | .do_something v => do_something st ev o v
  | .cause_error => cause_error st ev o

/-- Execute a sequence of calls, threading storage and events. -/
def execAll (st : Storage) (ev : List Event) :
    List (Origin × Call) → Storage × List Event
  | [] => (st, ev)
  | (o, c) :: rest =>
    let r := dispatch st ev o c
    execAll r.2.1 r.2.2 rest

/-- Modelled from the spec: section 4.2, `PostBuffer.admit`.  The executable
admission logic is absent from the source (only the `BufferHead` and
`BufferedPosts` storage declarations are present).  Requires the board to
exist; allocates the next buffer index from the per-board monotonically
increasing head counter, with an explicit overflow check against the
fixed-width (`u16`) `BufferIndex` instead of wraparound arithmetic; stores
the buffered post under (board, index) and returns the index. -/
def submitPost (st : Storage) (b : BoardIndex) (bp : BufferedPost) :
    Except ErrorKind (Storage × BufferIndex) :=
  match st.Board b with
  | none => .error .NotFound
  | some _ =>
    let head := buffer_head st b
    if head = BufferIndexMax then .error .Overflow
    else
      .ok ({ st with
        BufferHead := fun b' => if b' = b then some (head + 1) else st.BufferHead b'
        BufferedPosts := fun b' i =>
          if b' = b ∧ i = head then some bp else st.BufferedPosts b' i },
        head)

/-- Modelled from the spec: section 4.4, first commit round, acting on one
attester slot.  `Pending → FirstCommit(h1)`; rejected with
`InvalidTransition` if the slot is not `Pending`.  (The executable commit
logic is absent from the source; only the `AttestationState` type is
declared.) -/
def commitVoteRound1 (s : AttestationState) (h1 : H256) :
    Except ErrorKind AttestationState :=
  match s with
  | .Pending => .ok (.FirstCommit h1)
  | _ => .error .InvalidTransition

/-- Modelled from the spec: section 4.4, second commit round, acting on one
attester slot.  `FirstCommit(h1) → SecondCommit(h1, h2)`; rejected with
`InvalidTransition` if the slot is not `FirstCommit`. -/
def commitVoteRound2 (s : AttestationState) (h2 : H256) :
    Except ErrorKind AttestationState :=
  match s with
  | .FirstCommit h1 => .ok (.SecondCommit h1 h2)
  | _ => .error .InvalidTransition

/-- The revealed ballot corresponding to a disclosed vote. -/
def toRevealed : Vote → RevealedVote
  | .VTrue => .Aye
  | .VFalse => .Nay

/-- Modelled from the spec: section 4.4, reveal, acting on one attester
slot.  `bind1`/`bind2` are the pluggable commitment-binding hash functions
of section 9 (`bind(round, priorCommitments, vote, nonce) → hash`), with
the round and prior-commitment material curried in.  On a slot in
`SecondCommit(h1, h2)`: if recomputing both commitment hashes from the
disclosed vote and nonces reproduces `h1` and `h2` exactly, the slot
becomes `Revealed` with the claimed vote; a mismatch does not fail the
operation but forces the slot to `Revealed(Invalid)`.  On any other slot
state the call is rejected with `InvalidTransition`. -/
def revealVote (bind1 bind2 : Vote → Nat → H256) (s : AttestationState)
    (v : Vote) (n1 n2 : Nat) : Except ErrorKind AttestationState :=
  match s with
  | .SecondCommit h1 h2 =>
    if bind1 v n1 = h1 ∧ bind2 v n2 = h2 then .ok (.Revealed (toRevealed v))
    else .ok (.Revealed .Invalid)
  | _ => .error .InvalidTransition

/-- Whether a slot counts as an Aye in the finalize tally: exactly
`Revealed(Aye)` does (spec section 4.4). -/
def slotAye : AttestationState → Bool
  | .Revealed .Aye => true
  | _ => false

/-- Whether a slot counts as a Nay in the finalize tally: `Revealed(Nay)`,
`Revealed(Invalid)`, and every slot not yet revealed at the deadline
(implicit Nay) all do (spec section 4.4). -/
def slotNay : AttestationState → Bool
  | .Revealed .Nay => true
  | .Revealed .Invalid => true
  | .Pending => true
  | .FirstCommit _ => true
  | .SecondCommit _ _ => true
  | .Revealed .Aye => false

/-- Whether a slot has reached the `Revealed` stage. -/
def slotRevealed : AttestationState → Bool
  | .Revealed _ => true
  | _ => false

/-- Aye tally of one shard's attestation record. -/
def votesAye (vs : List AttestationState) : Nat := (vs.filter slotAye).length

/-- Nay tally of one shard's attestation record. -/
def votesNay (vs : List AttestationState) : Nat := (vs.filter slotNay).length

/-- Modelled from the spec: section 4.4, per-shard aggregation.  A shard
decides Available exactly when its Aye tally strictly exceeds its Nay
tally; a tie decides Unavailable. -/
def shardAvailable (vs : List AttestationState) : Bool :=
  votesNay vs < votesAye vs

/-- Modelled from the spec: section 4.4, resolution
(`finalize(board, buffer_index)`).  The executable resolution logic is
absent from the source; `shards` is the list of shard indices assigned to
the board, `deadline` the configured block-number threshold measured from
record creation, `now` the current block.  Requires the buffer slot to
exist (`NotFound` otherwise).  May proceed once every committee slot of
every shard is `Revealed`, or once the deadline has elapsed
(`InvalidTransition` otherwise).  Aggregates each shard's record; the post
is promoted to a permanent `Post` (allocating the thread's next post index
and bumping the thread) only when every shard decides Available; any shard
deciding Unavailable makes the whole post Unavailable and no post is
created.  Either way the buffer slot and all its attestation records are
deleted.  Returns the updated storage and whether the post was promoted. -/
def finalize (shards : List ShardIndex) (deadline now : BlockNumber)
    (st : Storage) (b : BoardIndex) (i : BufferIndex) :
    Except ErrorKind (Storage × Bool) :=
  match st.BufferedPosts b i with
  | none => .error .NotFound
  | some bp =>
    let recs := shards.map fun sh => (st.Attestations b i sh).getD []
    if (recs.all fun r => r.all slotRevealed) ∨ bp.data.created_at + deadline ≤ now then
      let available := recs.all shardAvailable
      let cleared : Storage := { st with
        BufferedPosts := fun b' i' =>
          if b' = b ∧ i' = i then none else st.BufferedPosts b' i'
        Attestations := fun b' i' sh =>
          if b' = b ∧ i' = i then none else st.Attestations b' i' sh }
      if available then
        let t := (st.Thread bp.board_index bp.thread_index).getD
          { bump_time := now, post_count := 0 }
        .ok ({ cleared with
          Post := fun b' t' p' =>
            if b' = bp.board_index ∧ t' = bp.thread_index ∧ p' = t.post_count
            then some bp.data else st.Post b' t' p'
          Thread := fun b' t' =>
            if b' = bp.board_index ∧ t' = bp.thread_index
            then some { bump_time := now, post_count := t.post_count + 1 }
            else st.Thread b' t' }, true)
      else .ok (cleared, false)
    else .error .InvalidTransition

/-- The stage index of an attester slot along the
`Pending → FirstCommit → SecondCommit → Revealed` progression. -/
def rank : AttestationState → Nat
  | .Pending => 0
  | .FirstCommit _ => 1
  | .SecondCommit _ _ => 2
  | .Revealed _ => 3

/-- One successful commit/reveal operation on an attester slot. -/
def SlotStep (bind1 bind2 : Vote → Nat → H256)
    (s s' : AttestationState) : Prop :=
  (∃ h, commitVoteRound1 s h = .ok s') ∨
  (∃ h, commitVoteRound2 s h = .ok s') ∨
  (∃ v n1 n2, revealVote bind1 bind2 s v n1 n2 = .ok s')

/-- Reachability of one attester slot's state through successful
commit/reveal operations. -/
inductive SlotReachable (bind1 bind2 : Vote → Nat → H256) :
    AttestationState → AttestationState → Prop where
  | refl (s : AttestationState) : SlotReachable bind1 bind2 s s
  | step {s t u : AttestationState} : SlotReachable bind1 bind2 s t →
      SlotStep bind1 bind2 t u → SlotReachable bind1 bind2 s u

/-- A storage state with nothing stored, used as a concrete evaluation
point. -/
def emptyStorage : Storage where
  Something := none
  Board := fun _ => none
  Thread := fun _ _ => none
  Post := fun _ _ _ => none
  ShardAttesters := fun _ _ => none
  BufferHead := fun _ => none
  BufferedPosts := fun _ _ => none
  Attestations := fun _ _ _ => none

/-- A sample board metadata record used as a concrete evaluation point. -/
def boardMeta0 : BoardMetadata where
  name := [66]
  description := []
  rules := []
  number_of_threads := 1
  posts_per_thread := 10

/-- A sample post used as a concrete evaluation point. -/
def samplePost : PostData where
  cid := 1
  author := 2
  created_at := 3

/-- A sample buffered post used as a concrete evaluation point. -/
def sampleBuffered : BufferedPost where
  data := samplePost
  board_index := 0
  thread_index := 0

/-- A storage state with one board, used as a concrete evaluation point. -/
def sampleBoardStorage : Storage :=
  { emptyStorage with Board := fun b => if b = 0 then some boardMeta0 else none }

/-- A storage state holding one buffered post at (0, 0) whose single-shard,
single-attester record is fully revealed Aye; a concrete evaluation
point for `finalize`. -/
def sampleAttestedStorage : Storage :=
  { sampleBoardStorage with
    BufferedPosts := fun b i => if b = 0 ∧ i = 0 then some sampleBuffered else none
    Attestations := fun b i sh =>
      if b = 0 ∧ i = 0 ∧ sh = 0 then some [.Revealed .Aye] else none }

-- ### Theorems

/-- C1 (counterexample): it is not the case that every one of the seven
specified operation names has a dispatchable call of the pallet: the
`#[pallet::call]` impl contains none of them. -/
theorem C1_counterexample :
    ¬ (∀ n ∈ specOperationNames, n ∈ dispatchableNames) := by
  decide

/-- C1 (amended): the pallet's dispatchable call surface consists of exactly
the two template calls `do_something` and `cause_error`; none of the seven
operations `createBoard`, `createThread`, `submitPost`, `commitVoteRound1`,
`commitVoteRound2`, `revealVote`, `finalizeAttestation` is implemented as a
dispatchable. -/
theorem C1_call_surface :
    dispatchableNames = ["do_something", "cause_error"] ∧
    ∀ n ∈ specOperationNames, n ∉ dispatchableNames := by
  exact ⟨rfl, by decide⟩

/-- C1 (witness): evaluating the amended statement on the concrete name
`createBoard`. -/
theorem C1_call_surface_witness : "createBoard" ∉ dispatchableNames :=
  C1_call_surface.2 "createBoard" (by decide)

/-- C7: for every dispatchable of the pallet, every starting storage and
event list, every origin and every error outcome, a failing dispatch leaves
the entire storage state and the event list unchanged (all failure paths of
`do_something` and `cause_error` occur before any write). -/
theorem C7_error_leaves_state_unchanged (st : Storage) (ev : List Event)
    (o : Origin) (c : Call) (e : DispatchError)
    (h : (dispatch st ev o c).1 = .error e) :
    (dispatch st ev o c).2.1 = st ∧ (dispatch st ev o c).2.2 = ev := by
  cases c with
  | do_something v =>
    cases o <;> simp [dispatch, do_something, ensure_signed] at h ⊢
  | cause_error =>
    cases o with
    | Signed who =>
      simp only [dispatch, cause_error, ensure_signed] at h ⊢
      cases hs : st.Something with
      | none => simp [hs]
      | some old =>
        cases hc : checked_add old 1 with
        | none => simp [hs, hc]
        | some new => simp [hs, hc] at h
    | Root => simp [dispatch, cause_error, ensure_signed]
    | Unsigned => simp [dispatch, cause_error, ensure_signed]

/-- C7 (witness): a concrete failing dispatch (unsigned `do_something`)
leaves the empty storage and event list unchanged. -/
theorem C7_witness :
    (dispatch emptyStorage [] .Unsigned (.do_something 5)).2.1 = emptyStorage ∧
    (dispatch emptyStorage [] .Unsigned (.do_something 5)).2.2 = [] :=
  C7_error_leaves_state_unchanged emptyStorage [] .Unsigned (.do_something 5)
    .BadOrigin rfl

/-- C8: querying the `BufferHead` map at a board index with no explicitly
stored entry returns the default value zero (the storage item is declared
with `ValueQuery`). -/
theorem C8_bufferHead_default (st : Storage) (b : BoardIndex)
    (h : st.BufferHead b = none) : buffer_head st b = 0 := by
  simp [buffer_head, h]

/-- C8 (witness): the empty storage stores nothing under board 0, and its
`BufferHead` query returns zero. -/
theorem C8_bufferHead_default_witness :
    emptyStorage.BufferHead 0 = none ∧ buffer_head emptyStorage 0 = 0 :=
  ⟨rfl, C8_bufferHead_default emptyStorage 0 rfl⟩

/-- C10: for every signed caller and every value, `do_something` succeeds,
unconditionally overwrites the stored `Something` value, and emits
`SomethingStored` with that value and caller; for every non-signed origin
it fails with `BadOrigin` and writes nothing. -/
theorem C10_do_something_stores (st : Storage) (ev : List Event) (v : Nat) :
    (∀ who, do_something st ev (.Signed who) v =
      (.ok (), { st with Something := some v },
        ev ++ [Event.SomethingStored v who])) ∧
    (∀ o, (∀ a, o ≠ .Signed a) →
      do_something st ev o v = (.error .BadOrigin, st, ev)) := by
  refine ⟨fun who => rfl, fun o ho => ?_⟩
  cases o with
  | Signed a => exact absurd rfl (ho a)
  | Root => rfl
  | Unsigned => rfl

/-- C10 (witness): evaluating both branches at concrete inputs: a signed
call stores 7 and emits the event; an unsigned call fails without
writing. -/
theorem C10_do_something_stores_witness :
    do_something emptyStorage [] (.Signed 3) 7 =
      (.ok (), { emptyStorage with Something := some 7 },
        [Event.SomethingStored 7 3]) ∧
    do_something emptyStorage [] .Unsigned 7 =
      (.error .BadOrigin, emptyStorage, []) :=
  ⟨(C10_do_something_stores emptyStorage [] 7).1 3,
   (C10_do_something_stores emptyStorage [] 7).2 .Unsigned
     (fun _ h => Origin.noConfusion h)⟩

/-- The non-`Something` storage items are identical in two storage states:
the boards, threads, posts, committees, buffer heads, buffered posts and
attestations all coincide. -/
def framePreserved (st st' : Storage) : Prop :=
  st'.Board = st.Board ∧ st'.Thread = st.Thread ∧ st'.Post = st.Post ∧
  st'.ShardAttesters = st.ShardAttesters ∧ st'.BufferHead = st.BufferHead ∧
  st'.BufferedPosts = st.BufferedPosts ∧ st'.Attestations = st.Attestations

lemma framePreserved_refl (st : Storage) : framePreserved st st :=
  ⟨rfl, rfl, rfl, rfl, rfl, rfl, rfl⟩

lemma framePreserved_trans {a b c : Storage} (h1 : framePreserved a b)
    (h2 : framePreserved b c) : framePreserved a c := by
  obtain ⟨e1, e2, e3, e4, e5, e6, e7⟩ := h1
  obtain ⟨f1, f2, f3, f4, f5, f6, f7⟩ := h2
  exact ⟨f1.trans e1, f2.trans e2, f3.trans e3, f4.trans e4, f5.trans e5,
    f6.trans e6, f7.trans e7⟩

lemma dispatch_framePreserved (st : Storage) (ev : List Event) (o : Origin)
    (c : Call) : framePreserved st (dispatch st ev o c).2.1 := by
  cases c with
  | do_something v =>
    cases o <;> simp [dispatch, do_something, ensure_signed, framePreserved]
  | cause_error =>
    cases o with
    | Signed who =>
      cases hs : st.Something with
      | none => simp [dispatch, cause_error, ensure_signed, hs, framePreserved]
      | some old =>
        cases hc : checked_add old 1 with
        | none =>
          simp [dispatch, cause_error, ensure_signed, hs, hc, framePreserved]
        | some new =>
          simp [dispatch, cause_error, ensure_signed, hs, hc, framePreserved]
    | Root => exact framePreserved_refl st
    | Unsigned => exact framePreserved_refl st

/-- C9: for every sequence of dispatched calls, every starting storage and
event list, the `Board`, `Thread`, `Post`, `ShardAttesters`, `BufferHead`,
`BufferedPosts` and `Attestations` storage items of the final state equal
those of the starting state: no dispatchable of the pallet ever writes any
of the board, thread, post, committee, buffer or attestation storage. -/
theorem C9_dispatch_preserves_board_storage (calls : List (Origin × Call)) :
    ∀ (st : Storage) (ev : List Event),
      framePreserved st (execAll st ev calls).1 := by
  induction calls with
  | nil => intro st ev; exact framePreserved_refl st
  | cons oc rest ih =>
    intro st ev
    obtain ⟨o, c⟩ := oc
    exact framePreserved_trans (dispatch_framePreserved st ev o c)
      (ih (dispatch st ev o c).2.1 (dispatch st ev o c).2.2)

/-- C6: for every board that exists: if the board's `BufferHead` counter
has reached the maximum value of the fixed-width (`u16`) `BufferIndex`
type, `admit` fails with an explicit `Overflow` error instead of wrapping;
below the maximum, `admit` returns the current head, stores the buffered
post there, and increments the head by exactly one. -/
theorem C6_admit_overflow_check (st : Storage) (b : BoardIndex)
    (bp : BufferedPost) (hb : st.Board b ≠ none) :
    (buffer_head st b = BufferIndexMax → submitPost st b bp = .error .Overflow) ∧
    (buffer_head st b < BufferIndexMax →
      ∃ st', submitPost st b bp = .ok (st', buffer_head st b) ∧
        buffer_head st' b = buffer_head st b + 1 ∧
        st'.BufferedPosts b (buffer_head st b) = some bp) := by
  cases hB : st.Board b with
  | none => exact absurd hB hb
  | some meta =>
    constructor
    · intro hmax
      simp [submitPost, hB, hmax]
    · intro hlt
      refine ⟨{ st with
          BufferHead := fun b' =>
            if b' = b then some (buffer_head st b + 1) else st.BufferHead b'
          BufferedPosts := fun b' i =>
            if b' = b ∧ i = buffer_head st b then some bp
            else st.BufferedPosts b' i }, ?_, ?_, ?_⟩
      · simp [submitPost, hB, Nat.ne_of_lt hlt]
      · simp [buffer_head]
      · simp

/-- C6 (witness): on a storage with board 0 present and an empty buffer,
`admit` returns index 0 and advances the head to 1. -/
theorem C6_admit_overflow_check_witness :
    ∃ st', submitPost sampleBoardStorage 0 sampleBuffered = .ok (st', buffer_head sampleBoardStorage 0) ∧
      buffer_head st' 0 = buffer_head sampleBoardStorage 0 + 1 ∧
      st'.BufferedPosts 0 (buffer_head sampleBoardStorage 0) = some sampleBuffered :=
  (C6_admit_overflow_check sampleBoardStorage 0 sampleBuffered
      (by simp [sampleBoardStorage])).2
    (by simp [buffer_head, sampleBoardStorage, emptyStorage, BufferIndexMax])

/-- C3: for every reveal on a slot in `SecondCommit(h1, h2)`: if recomputing
the commitment hashes from the disclosed vote and nonces reproduces both
`h1` and `h2`, the slot becomes `Revealed` with the claimed vote, which is
`Aye` or `Nay`; otherwise the reveal still succeeds (it does not fail the
operation) but forces the slot to `Revealed(Invalid)`, and a mismatching
preimage can never produce `Revealed(Aye)` or `Revealed(Nay)`. -/
theorem C3_reveal_commitment_binding (bind1 bind2 : Vote → Nat → H256)
    (h1 h2 : H256) (v : Vote) (n1 n2 : Nat) :
    (bind1 v n1 = h1 ∧ bind2 v n2 = h2 →
      revealVote bind1 bind2 (.SecondCommit h1 h2) v n1 n2 =
        .ok (.Revealed (toRevealed v)) ∧
      (toRevealed v = .Aye ∨ toRevealed v = .Nay)) ∧
    (¬ (bind1 v n1 = h1 ∧ bind2 v n2 = h2) →
      revealVote bind1 bind2 (.SecondCommit h1 h2) v n1 n2 =
        .ok (.Revealed .Invalid) ∧
      ∀ rv, revealVote bind1 bind2 (.SecondCommit h1 h2) v n1 n2 =
        .ok (.Revealed rv) → rv = .Invalid) := by
  constructor
  · intro hmatch
    refine ⟨by simp [revealVote, hmatch.1, hmatch.2], ?_⟩
    cases v <;> simp [toRevealed]
  · intro hmismatch
    have heq : revealVote bind1 bind2 (.SecondCommit h1 h2) v n1 n2 =
        .ok (.Revealed .Invalid) := by
      simp only [revealVote, if_neg hmismatch]
    refine ⟨heq, fun rv hrv => ?_⟩
    rw [heq] at hrv
    exact (AttestationState.Revealed.inj (Except.ok.inj hrv)).symm

/-- C3 (witness): with the identity-on-nonce binding functions, a reveal
whose first nonce does not reproduce the stored hash yields
`Revealed(Invalid)`. -/
theorem C3_reveal_commitment_binding_witness :
    revealVote (fun _ n => n) (fun _ n => n) (.SecondCommit 5 7) .VTrue 4 7 =
      .ok (.Revealed .Invalid) :=
  ((C3_reveal_commitment_binding (fun _ n => n) (fun _ n => n) 5 7 .VTrue 4 7).2
    (by simp)).1

lemma commitVoteRound1_ok_inv {s s' : AttestationState} {h : H256}
    (hh : commitVoteRound1 s h = .ok s') :
    s = .Pending ∧ s' = .FirstCommit h := by
  cases s with
  | Pending => exact ⟨rfl, (Except.ok.inj hh).symm⟩
  | FirstCommit h1 => exact absurd hh (by simp [commitVoteRound1])
  | SecondCommit h1 h2 => exact absurd hh (by simp [commitVoteRound1])
  | Revealed rv => exact absurd hh (by simp [commitVoteRound1])

lemma commitVoteRound2_ok_inv {s s' : AttestationState} {h : H256}
    (hh : commitVoteRound2 s h = .ok s') :
    ∃ h1, s = .FirstCommit h1 ∧ s' = .SecondCommit h1 h := by
  cases s with
  | Pending => exact absurd hh (by simp [commitVoteRound2])
  | FirstCommit h1 => exact ⟨h1, rfl, (Except.ok.inj hh).symm⟩
  | SecondCommit h1 h2 => exact absurd hh (by simp [commitVoteRound2])
  | Revealed rv => exact absurd hh (by simp [commitVoteRound2])

lemma revealVote_ok_inv {bind1 bind2 : Vote → Nat → H256}
    {s s' : AttestationState} {v : Vote} {n1 n2 : Nat}
    (hh : revealVote bind1 bind2 s v n1 n2 = .ok s') :
    ∃ h1 h2 rv, s = .SecondCommit h1 h2 ∧ s' = .Revealed rv := by
  cases s with
  | Pending => exact absurd hh (by simp [revealVote])
  | FirstCommit h1 => exact absurd hh (by simp [revealVote])
  | SecondCommit h1 h2 =>
    by_cases hm : bind1 v n1 = h1 ∧ bind2 v n2 = h2
    · refine ⟨h1, h2, toRevealed v, rfl, ?_⟩
      rw [revealVote, if_pos hm] at hh
      exact (Except.ok.inj hh).symm
    · refine ⟨h1, h2, .Invalid, rfl, ?_⟩
      rw [revealVote, if_neg hm] at hh
      exact (Except.ok.inj hh).symm
  | Revealed rv => exact absurd hh (by simp [revealVote])

lemma slotStep_rank {bind1 bind2 : Vote → Nat → H256}
    {s s' : AttestationState} (hstep : SlotStep bind1 bind2 s s') :
    rank s' = rank s + 1 := by
  rcases hstep with ⟨h, hh⟩ | ⟨h, hh⟩ | ⟨v, n1, n2, hh⟩
  · obtain ⟨hs, hs'⟩ := commitVoteRound1_ok_inv hh
    rw [hs, hs']; rfl
  · obtain ⟨h1, hs, hs'⟩ := commitVoteRound2_ok_inv hh
    rw [hs, hs']; rfl
  · obtain ⟨h1, h2, rv, hs, hs'⟩ := revealVote_ok_inv hh
    rw [hs, hs']; rfl

lemma reachable_secondCommit_via_firstCommit {bind1 bind2 : Vote → Nat → H256}
    {h1 h2 : H256}
    (h : SlotReachable bind1 bind2 .Pending (.SecondCommit h1 h2)) :
    SlotReachable bind1 bind2 .Pending (.FirstCommit h1) := by
  cases h with
  | step hr hs =>
    rcases hs with ⟨hc, hh⟩ | ⟨hc, hh⟩ | ⟨v, n1, n2, hh⟩
    · exact absurd (commitVoteRound1_ok_inv hh).2 (by simp)
    · obtain ⟨h1', hs, hs'⟩ := commitVoteRound2_ok_inv hh
      obtain ⟨e1, e2⟩ := AttestationState.SecondCommit.inj hs'
      rw [hs] at hr
      rw [e1]
      exact hr
    · obtain ⟨ha, hb, rv, hs, hs'⟩ := revealVote_ok_inv hh
      exact absurd hs' (by simp)

/-- C2: the attester-slot state machine only moves forward.  Every
successful commit/reveal operation advances the slot exactly one stage
along `Pending → FirstCommit → SecondCommit → Revealed`; a commit or
reveal on a slot that is not in the required predecessor state fails with
`InvalidTransition` (returning no new state, so the slot is left
unchanged); and a slot reachable from `Pending` that is `Revealed` has
passed through `FirstCommit(h1)` and `SecondCommit(h1, h2)` on the way. -/
theorem C2_attestation_forward_only (bind1 bind2 : Vote → Nat → H256) :
    (∀ s s', SlotStep bind1 bind2 s s' → rank s' = rank s + 1) ∧
    (∀ s h, s ≠ .Pending →
      commitVoteRound1 s h = .error .InvalidTransition) ∧
    (∀ s h, (∀ h1, s ≠ .FirstCommit h1) →
      commitVoteRound2 s h = .error .InvalidTransition) ∧
    (∀ s v n1 n2, (∀ h1 h2, s ≠ .SecondCommit h1 h2) →
      revealVote bind1 bind2 s v n1 n2 = .error .InvalidTransition) ∧
    (∀ rv, SlotReachable bind1 bind2 .Pending (.Revealed rv) →
      ∃ h1 h2, SlotReachable bind1 bind2 .Pending (.FirstCommit h1) ∧
        SlotReachable bind1 bind2 .Pending (.SecondCommit h1 h2) ∧
        SlotStep bind1 bind2 (.SecondCommit h1 h2) (.Revealed rv)) := by
  refine ⟨fun s s' => slotStep_rank, ?_, ?_, ?_, ?_⟩
  · intro s h hs
    cases s with
    | Pending => exact absurd rfl hs
    | FirstCommit h1 => rfl
    | SecondCommit h1 h2 => rfl
    | Revealed rv => rfl
  · intro s h hs
    cases s with
    | Pending => rfl
    | FirstCommit h1 => exact absurd rfl (hs h1)
    | SecondCommit h1 h2 => rfl
    | Revealed rv => rfl
  · intro s v n1 n2 hs
    cases s with
    | Pending => rfl
    | FirstCommit h1 => rfl
    | SecondCommit h1 h2 => exact absurd rfl (hs h1 h2)
    | Revealed rv => rfl
  · intro rv h
    cases h with
    | step hr hs =>
      rcases hs with ⟨hc, hh⟩ | ⟨hc, hh⟩ | ⟨v, n1, n2, hh⟩
      · exact absurd (commitVoteRound1_ok_inv hh).2 (by simp)
      · obtain ⟨h1', heq, hs'⟩ := commitVoteRound2_ok_inv hh
        exact absurd hs' (by simp)
      · obtain ⟨h1, h2, rv', heq, hs'⟩ := revealVote_ok_inv hh
        rw [heq] at hr hh
        exact ⟨h1, h2, reachable_secondCommit_via_firstCommit hr, hr,
          Or.inr (Or.inr ⟨v, n1, n2, hh⟩)⟩

/-- C2 (witness): a second-round commit attempted on a slot still in
`Pending` fails with `InvalidTransition`, and the theorem's rank law
evaluated on a concrete first commit. -/
theorem C2_attestation_forward_only_witness :
    commitVoteRound2 .Pending 9 = .error .InvalidTransition ∧
    rank (.FirstCommit 5) = rank .Pending + 1 :=
  ⟨(C2_attestation_forward_only (fun _ n => n) (fun _ n => n)).2.2.1 .Pending 9
      (fun h1 => by simp),
   (C2_attestation_forward_only (fun _ n => n) (fun _ n => n)).1 .Pending
      (.FirstCommit 5) (Or.inl ⟨5, rfl⟩)⟩

lemma slotNay_eq_not_slotAye (s : AttestationState) :
    slotNay s = !slotAye s := by
  rcases s with _ | h1 | ⟨h1, h2⟩ | (_ | _ | _) <;> rfl

lemma finalize_ok_cases {shards : List ShardIndex} {deadline now : BlockNumber}
    {st : Storage} {b : BoardIndex} {i : BufferIndex} {st' : Storage}
    {av : Bool}
    (h : finalize shards deadline now st b i = .ok (st', av)) :
    ∃ bp, st.BufferedPosts b i = some bp ∧
      av = (shards.map fun sh => (st.Attestations b i sh).getD []).all shardAvailable ∧
      st'.BufferedPosts b i = none ∧
      (av = true →
        st'.Post bp.board_index bp.thread_index
          ((st.Thread bp.board_index bp.thread_index).getD
            { bump_time := now, post_count := 0 }).post_count = some bp.data) ∧
      (av = false → st'.Post = st.Post) := by
  cases hbp : st.BufferedPosts b i with
  | none =>
    simp only [finalize, hbp] at h
    exact absurd h (by simp)
  | some bp =>
    simp only [finalize, hbp] at h
    refine ⟨bp, rfl, ?_⟩
    split at h
    · split at h
      · rename_i hready hav
        have hpair := Except.ok.inj h
        have h1 := congrArg Prod.fst hpair
        have h2 := congrArg Prod.snd hpair
        simp only at h1 h2
        subst h2
        refine ⟨hav.symm, ?_, ?_, ?_⟩
        · rw [← h1]; simp
        · intro _; rw [← h1]; simp
        · intro hfalse; cases hfalse
      · rename_i hready hav
        have hpair := Except.ok.inj h
        have h1 := congrArg Prod.fst hpair
        have h2 := congrArg Prod.snd hpair
        simp only at h1 h2
        subst h2
        refine ⟨((Bool.not_eq_true _).mp hav).symm, ?_, ?_, ?_⟩
        · rw [← h1]; simp
        · intro htrue; cases htrue
        · intro _; rw [← h1]
    · exact absurd h (by simp)

/-- C5: a buffer slot resolved by a successful `finalize` no longer exists:
the resolved storage holds nothing at (board, index), and every second
`finalize` call on the same (board, buffer index) fails with `NotFound`
(so it can never promote the same buffered post a second time). -/
theorem C5_finalize_idempotent (shards : List ShardIndex)
    (deadline now : BlockNumber) (st : Storage) (b : BoardIndex)
    (i : BufferIndex) (st' : Storage) (av : Bool)
    (h : finalize shards deadline now st b i = .ok (st', av)) :
    st'.BufferedPosts b i = none ∧
    ∀ (shards' : List ShardIndex) (deadline' now' : BlockNumber),
      finalize shards' deadline' now' st' b i = .error .NotFound := by
  obtain ⟨bp, _, _, hnone, _, _⟩ := finalize_ok_cases h
  refine ⟨hnone, fun shards' deadline' now' => ?_⟩
  unfold finalize
  rw [hnone]

/-- C5 (witness): finalizing the sample attested storage resolves slot
(0, 0), and any second finalize on it fails with `NotFound`. -/
theorem C5_finalize_idempotent_witness :
    ∃ st' av, finalize [0] 10 0 sampleAttestedStorage 0 0 = .ok (st', av) ∧
      st'.BufferedPosts 0 0 = none ∧
      ∀ (shards' : List ShardIndex) (deadline' now' : BlockNumber),
        finalize shards' deadline' now' st' 0 0 = .error .NotFound := by
  obtain ⟨st', av, hfin⟩ :
      ∃ st' av, finalize [0] 10 0 sampleAttestedStorage 0 0 = .ok (st', av) :=
    ⟨_, _, rfl⟩
  obtain ⟨h1, h2⟩ :=
    C5_finalize_idempotent [0] 10 0 sampleAttestedStorage 0 0 st' av hfin
  exact ⟨st', av, hfin, h1, h2⟩

/-- C4: the finalize tally counts exactly `Revealed(Aye)` as Aye, and counts
`Revealed(Nay)`, `Revealed(Invalid)` and every not-yet-revealed slot as
Nay (each slot counted exactly once); a shard decides Available exactly
when Aye strictly exceeds Nay, so a tie decides Unavailable; and a
successful finalize promotes the buffered post to a permanent `Post` when
every assigned shard decides Available, while any shard deciding
Unavailable makes the outcome Unavailable and creates no post. -/
theorem C4_finalize_aggregation :
    (∀ s, slotAye s = true ↔ s = .Revealed .Aye) ∧
    (∀ s, slotNay s = true ↔
      (s = .Revealed .Nay ∨ s = .Revealed .Invalid ∨ slotRevealed s = false)) ∧
    (∀ vs, votesAye vs + votesNay vs = vs.length) ∧
    (∀ vs, shardAvailable vs = true ↔ votesNay vs < votesAye vs) ∧
    (∀ vs, votesAye vs = votesNay vs → shardAvailable vs = false) ∧
    (∀ (shards : List ShardIndex) (deadline now : BlockNumber)
      (st : Storage) (b : BoardIndex) (i : BufferIndex) (bp : BufferedPost)
      (st' : Storage) (av : Bool),
      st.BufferedPosts b i = some bp →
      finalize shards deadline now st b i = .ok (st', av) →
      ((av = true ↔
         ∀ sh ∈ shards, shardAvailable ((st.Attestations b i sh).getD []) = true) ∧
       (av = true →
         ∃ tc, st'.Post bp.board_index bp.thread_index tc = some bp.data) ∧
       (av = false → st'.Post = st.Post))) := by
  refine ⟨?_, ?_, ?_, ?_, ?_, ?_⟩
  · intro s
    rcases s with _ | h1 | ⟨h1, h2⟩ | (_ | _ | _) <;> simp [slotAye]
  · intro s
    rcases s with _ | h1 | ⟨h1, h2⟩ | (_ | _ | _) <;>
      simp [slotNay, slotRevealed]
  · intro vs
    induction vs with
    | nil => rfl
    | cons s rest ih =>
      simp only [votesAye, votesNay, List.filter_cons,
        slotNay_eq_not_slotAye] at ih ⊢
      cases hA : slotAye s <;> simp [hA] <;> omega
  · intro vs
    simp [shardAvailable]
  · intro vs h
    simp [shardAvailable, h]
  · intro shards deadline now st b i bp st' av hbp hfin
    obtain ⟨bp', hbp', hav, _, hpost, hnopost⟩ := finalize_ok_cases hfin
    obtain rfl : bp' = bp := by
      rw [hbp] at hbp'
      exact (Option.some.inj hbp').symm
    refine ⟨?_, fun htrue => ⟨_, hpost htrue⟩, hnopost⟩
    rw [hav]
    simp [List.all_map, List.all_eq_true, Function.comp]

/-- C4 (witness): a shard with one Aye and one Nay reveal (a tie) decides
Unavailable. -/
theorem C4_finalize_aggregation_witness :
    shardAvailable [.Revealed .Aye, .Revealed .Nay] = false :=
  C4_finalize_aggregation.2.2.2.2.1 [.Revealed .Aye, .Revealed .Nay]
    (by decide)

end BoardState
